import Mathlib

/-!
# Shallow embedding of `kurios.py` — a minimal entity/component/system runtime

This file embeds the data model and operations of `kurios.py` in Lean:
`Component`, `ComponentStorage`, the rule constructors and `SignatureMask`,
`OnChangeSystem`, `IDGenerator`, and the `Coordinator`, together with the two
demonstration workflows (`num_to_char`, `char_to_ascii`).

Modelling conventions:
* Python `dict` (insertion-ordered, unique keys) is an association list; the
  helpers `dictGet`, `dictSet`, `dictDel` mirror `d[k]`-lookup, `d[k] = v`
  assignment and `del d[k]`.  Keys are unique by construction, so deleting is
  dropping every pair with that key, and assignment replaces the first pair.
* `ComponentStorage.database` is a `defaultdict(list)`: lookup of a missing
  entity id creates (and returns) an empty entry — see `ComponentStorage.getitem`.
* Exceptions are explicit: a mutating operation returns its (possibly
  partially-mutated) state together with `Option Err`; `Err.keyError` is
  Python's `KeyError` (the spec's NotFound), `Err.valueError` is the
  TypeMismatch `ValueError`, `Err.indexError` is `list[0]` on an empty list and
  `Err.typeError` is `ord` applied to a non-character.
* The workflow callbacks stored in an `OnChangeSystem` are the ones appearing
  in the source, represented as the closed type `Workflow` and interpreted by
  `runWorkflow`.  The source's `num_to_char` and `char_to_ascii` read the first
  component of the processed entity but attach the new component to the
  module-level variable `entity` (kurios.py lines 244 and 250), modelled here
  by the explicit `globalEntity` parameter.
-/

namespace Kurios

abbrev ComponentType := String
abbrev EntityID := Int

/-- Payloads occurring in the program: Python ints and strings. -/
inductive Data where
  | int (n : Int)
  | str (s : String)
deriving DecidableEq, Repr

/-- `class Component`: a type tag plus a payload. -/
structure Component where
  comp_type : ComponentType
  data : Data
deriving DecidableEq, Repr

/-- Python exceptions raised by the program. -/
inductive Err where
  | keyError
  | valueError
  | indexError
  | typeError
deriving DecidableEq, Repr

/-- Python dict lookup `d[k]` (first matching pair; keys are unique by
construction). -/
def dictGet {α β : Type} [DecidableEq α] : List (α × β) → α → Option β
  | [], _ => none
  | p :: d, k => if p.1 = k then some p.2 else dictGet d k

/-- Python dict assignment `d[k] = v`: replace the binding in place if the key
is present, otherwise append the new binding at the end (insertion order). -/
def dictSet {α β : Type} [DecidableEq α] : List (α × β) → α → β → List (α × β)
  | [], k, v => [(k, v)]
  | p :: d, k, v => if p.1 = k then (k, v) :: d else p :: dictSet d k v

/-- Drop every pair with the given key (keys are unique by construction, so
this is the deletion of the key's single entry). -/
def dictDropKey {α β : Type} [DecidableEq α] : List (α × β) → α → List (α × β)
  | [], _ => []
  | p :: d, k => if p.1 = k then dictDropKey d k else p :: dictDropKey d k

/-- Python `del d[k]`: `none` (KeyError) if the key is absent, otherwise the
dict without that key. -/
def dictDel {α β : Type} [DecidableEq α] (d : List (α × β)) (k : α) :
    Option (List (α × β)) :=
  if (dictGet d k).isSome then some (dictDropKey d k) else none

/-- A signature is a Python `set` of type tags, modelled as a duplicate-free
list (`sigAdd` inserts only when absent). -/
abbrev Signature := List ComponentType

/-- Python `set.add`. -/
def sigAdd (s : Signature) (t : ComponentType) : Signature :=
  if t ∈ s then s else s ++ [t]

abbrev AllowsSignature := Signature → Bool

/-- `create_min_rule`: passes iff every tag of the rule is in the signature. -/
def create_min_rule (args : List ComponentType) : AllowsSignature :=
  fun signature => args.all (fun val => decide (val ∈ signature))

/-- `create_bl_rule`: passes iff no tag of the signature is in the rule's set. -/
def create_bl_rule (args : List ComponentType) : AllowsSignature :=
  fun signature => signature.all (fun val => decide (val ∉ args))

/-- `create_wl_rule`: passes iff every tag of the signature is in the rule's set. -/
def create_wl_rule (args : List ComponentType) : AllowsSignature :=
  fun signature => signature.all (fun val => decide (val ∈ args))

/-- `class MaskRule`: wraps an `allows` predicate. -/
structure MaskRule where
  allows : AllowsSignature

/-- `class SignatureMask`: an ordered list of rules. -/
structure SignatureMask where
  mask_rules : List MaskRule

/-- `SignatureMask.contains`: true iff every rule passes (the source loop
short-circuits on the first failing rule; `List.all` does the same). -/
def SignatureMask.contains (m : SignatureMask) (signature : Signature) : Bool :=
  m.mask_rules.all (fun rule => rule.allows signature)

/-- `build_signature_mask`. -/
def build_signature_mask (allows_functions : List AllowsSignature) : SignatureMask :=
  ⟨allows_functions.map MaskRule.mk⟩

/-- `class ComponentStorage`: a type tag plus a `defaultdict(list)` from
entity id to the ordered list of that entity's components of the type. -/
structure ComponentStorage where
  comp_type : ComponentType
  database : List (EntityID × List Component)
deriving DecidableEq, Repr

/-- `ComponentStorage.__getitem__` on the `defaultdict`: returns the stored
list, creating (and returning) a fresh empty entry when the id is absent. -/
def ComponentStorage.getitem (s : ComponentStorage) (index : EntityID) :
    List Component × ComponentStorage :=
  match dictGet s.database index with
  | some comps => (comps, s)
  | none => ([], { s with database := s.database ++ [(index, [])] })

/-- `ComponentStorage.add`: `ValueError` on a tag mismatch, otherwise
`self.database[entity_id].append(component)` — the defaultdict lookup creates
the entry when needed and the component is appended to it. -/
def ComponentStorage.add (s : ComponentStorage) (entity_id : EntityID)
    (component : Component) : ComponentStorage × Option Err :=
  if component.comp_type ≠ s.comp_type then (s, some .valueError)
  else
    let r := s.getitem entity_id
    ({ r.2 with database := dictSet r.2.database entity_id (r.1 ++ [component]) }, none)

/-- `ComponentStorage.remove_entity`: `del self.database[entity_id]`,
KeyError when the id has no entry. -/
def ComponentStorage.remove_entity (s : ComponentStorage) (entity_id : EntityID) :
    ComponentStorage × Option Err :=
  match dictDel s.database entity_id with
  | some db => ({ s with database := db }, none)
  | none => (s, some .keyError)

/-- `class IDGenerator`: a counter plus a FIFO deque of dead ids. -/
structure IDGenerator where
  counter : Int
  dead_ids : List Int
deriving DecidableEq, Repr

/-- `IDGenerator.get`: pop the oldest dead id when one exists, otherwise
return the counter and advance it. -/
def IDGenerator.get (g : IDGenerator) : Int × IDGenerator :=
  match g.dead_ids with
  | d :: rest => (d, { g with dead_ids := rest })
  | [] => (g.counter, { g with counter := g.counter + 1 })

/-- `IDGenerator.add_dead`: append to the back of the deque. -/
def IDGenerator.add_dead (g : IDGenerator) (dead_id : Int) : IDGenerator :=
  { g with dead_ids := g.dead_ids ++ [dead_id] }

/-- The workflow callbacks of the source (`num_to_char`, `char_to_ascii`),
interpreted by `runWorkflow`. -/
inductive Workflow where
  | num_to_char
  | char_to_ascii
deriving DecidableEq, Repr

/-- `class OnChangeSystem`: a mask, the bound workflow and the FIFO queue of
candidate entity ids (the coordinator back-reference is threaded explicitly). -/
structure OnChangeSystem where
  signature_mask : SignatureMask
  workflow : Workflow
  que : List EntityID

/-- `class Coordinator`: the system list, the entity table (id → cached
signature), the id generator and the per-type storages. -/
structure Coordinator where
  systems : List OnChangeSystem
  entities : List (EntityID × Signature)
  id_generator : IDGenerator
  component_storages : List (ComponentType × ComponentStorage)

/-- `Coordinator.add_entity`: fetch an id, register an empty signature,
return the id. -/
def Coordinator.add_entity (w : Coordinator) : EntityID × Coordinator :=
  let r := w.id_generator.get
  (r.1, { w with id_generator := r.2, entities := dictSet w.entities r.1 [] })

/-- `Coordinator.get_entity_signature`: `self.entities[entity_id]`, KeyError
when the id is unknown. -/
def Coordinator.get_entity_signature (w : Coordinator) (entity_id : EntityID) :
    Except Err Signature :=
  match dictGet w.entities entity_id with
  | some s => .ok s
  | none => .error .keyError

/-- The loop of `Coordinator.remove_entity` over `component_storages.items()`:
purge the id from each storage in insertion order; a KeyError stops the loop,
leaving the earlier storages purged and the later ones untouched. -/
def purgeStorages : List (ComponentType × ComponentStorage) → EntityID →
    List (ComponentType × ComponentStorage) × Option Err
  | [], _ => ([], none)
  | (t, s) :: rest, entity_id =>
    match s.remove_entity entity_id with
    | (s1, none) =>
      let r := purgeStorages rest entity_id
      ((t, s1) :: r.1, r.2)
    | (s1, some e) => ((t, s1) :: rest, some e)

/-- `Coordinator.remove_entity`: the id is added to the dead pool first, then
every storage is purged, then the signature entry is deleted.  Any KeyError
propagates, leaving the earlier mutations in place. -/
def Coordinator.remove_entity (w : Coordinator) (entity_id : EntityID) :
    Coordinator × Option Err :=
  let w1 : Coordinator := { w with id_generator := w.id_generator.add_dead entity_id }
  match purgeStorages w1.component_storages entity_id with
  | (ss, some e) => ({ w1 with component_storages := ss }, some e)
  | (ss, none) =>
    let w2 : Coordinator := { w1 with component_storages := ss }
    match dictDel w2.entities entity_id with
    | some es => ({ w2 with entities := es }, none)
    | none => (w2, some .keyError)

/-- The notification loop at the end of `Coordinator.add_component`: every
system's `on_entity_changed` fetches the entity's current signature and
enqueues the id when its mask accepts it.  The signature is unchanged across
the loop, so the per-system fetches collapse to one; if the entity is unknown
the first fetch raises KeyError with no queue touched. -/
def notifySystems (w : Coordinator) (entity_id : EntityID) : Coordinator × Option Err :=
  match w.get_entity_signature entity_id with
  | .error e => (w, some e)
  | .ok sig =>
    ({ w with systems := w.systems.map (fun s =>
        if s.signature_mask.contains sig then { s with que := s.que ++ [entity_id] }
        else s) }, none)

/-- Replace the storage registered for a tag. -/
def setStorage (w : Coordinator) (t : ComponentType) (s : ComponentStorage) : Coordinator :=
  { w with component_storages := dictSet w.component_storages t s }

/-- `Coordinator.add_component`: lazily create the storage for the component's
tag, append via `ComponentStorage.add`, then `self.entities[entity_id].add`
(KeyError when the entity is unknown — the storage mutation stays), then
notify every system. -/
def Coordinator.add_component (w : Coordinator) (entity_id : EntityID)
    (component : Component) : Coordinator × Option Err :=
  let comp_type := component.comp_type
  let stor := match dictGet w.component_storages comp_type with
              | some s => s
              | none => ComponentStorage.mk comp_type []
  match stor.add entity_id component with
  | (stor1, some e) => (setStorage w comp_type stor1, some e)
  | (stor1, none) =>
    let w2 := setStorage w comp_type stor1
    match dictGet w2.entities entity_id with
    | none => (w2, some .keyError)
    | some sig =>
      notifySystems
        { w2 with entities := dictSet w2.entities entity_id (sigAdd sig comp_type) }
        entity_id

/-- `Coordinator.get_components`: `self.component_storages[comp_type]` raises
KeyError when the tag has no storage; the storage's defaultdict lookup then
always returns a list (creating an empty entry when the id is absent). -/
def Coordinator.get_components (w : Coordinator) (entity_id : EntityID)
    (comp_type : ComponentType) : Except Err (List Component) × Coordinator :=
  match dictGet w.component_storages comp_type with
  | none => (.error .keyError, w)
  | some stor =>
    let r := stor.getitem entity_id
    (.ok r.1, setStorage w comp_type r.2)

/-- Python `str` on the payloads occurring in the program. -/
def pyStr : Data → String
  | .int n => toString n
  | .str s => s

/-- Python `ord`: the code point of a one-character string, `TypeError`
otherwise. -/
def pyOrd : Data → Except Err Int
  | .str s =>
    match s.data with
    | [c] => .ok (Int.ofNat c.toNat)
    | _ => .error .typeError
  | .int _ => .error .typeError

/-- The source's workflow callbacks.  `num_to_char` reads the first `"number"`
component of the processed entity and attaches `Component("char", str(data))`;
`char_to_ascii` reads the first `"char"` component and attaches
`Component("ascii", ord(data))`.  Both attach to the module-level `entity`
(kurios.py lines 244, 250), modelled by `globalEntity`. -/
def runWorkflow (globalEntity : EntityID) :
    Workflow → EntityID → Coordinator → Coordinator × Option Err
  | .num_to_char, entity_id, w =>
    match w.get_components entity_id "number" with
    | (.error e, w1) => (w1, some e)
    | (.ok [], w1) => (w1, some .indexError)
    | (.ok (component :: _), w1) =>
      w1.add_component globalEntity (Component.mk "char" (.str (pyStr component.data)))
  | .char_to_ascii, entity_id, w =>
    match w.get_components entity_id "char" with
    | (.error e, w1) => (w1, some e)
    | (.ok [], w1) => (w1, some .indexError)
    | (.ok (component :: _), w1) =>
      match pyOrd component.data with
      | .error e => (w1, some e)
      | .ok n => w1.add_component globalEntity (Component.mk "ascii" (.int n))

/-- The dequeue loop of `OnChangeSystem.update`: pop ids one at a time; a pop
whose entity is unknown raises KeyError (queue already popped); a pop whose
current signature satisfies the mask is selected; other pops are discarded.
Returns the remaining queue, the selected id and the error, exactly one of the
last two being set unless the queue runs out. -/
def selectFromQueue (mask : SignatureMask) (entities : List (EntityID × Signature)) :
    List EntityID → List EntityID × Option EntityID × Option Err
  | [] => ([], none, none)
  | entity_id :: rest =>
    match dictGet entities entity_id with
    | none => (rest, none, some .keyError)
    | some sig =>
      if mask.contains sig then (rest, some entity_id, none)
      else selectFromQueue mask entities rest

/-- In-place update of the i-th element of a list. -/
def listModify {α : Type} (f : α → α) : Nat → List α → List α
  | _, [] => []
  | 0, a :: l => f a :: l
  | n + 1, a :: l => a :: listModify f n l

/-- Overwrite the queue of the i-th system. -/
def setQue (w : Coordinator) (i : Nat) (q : List EntityID) : Coordinator :=
  { w with systems := listModify (fun s => { s with que := q }) i w.systems }

/-- `OnChangeSystem.update` for the system at index `i`: return at once on an
empty queue; otherwise run the dequeue loop, write the popped queue back, and
either propagate the KeyError, return without processing, or invoke the
workflow once on the selected id.  The third component lists the ids the
workflow was invoked on. -/
def sysUpdate (globalEntity : EntityID) (i : Nat) (w : Coordinator) :
    Coordinator × Option Err × List EntityID :=
  match w.systems.get? i with
  | none => (w, none, [])
  | some s =>
    if s.que = [] then (w, none, [])
    else
      match selectFromQueue s.signature_mask w.entities s.que with
      | (que1, _, some e) => (setQue w i que1, some e, [])
      | (que1, none, none) => (setQue w i que1, none, [])
      | (que1, some entity_id, none) =>
        let r := runWorkflow globalEntity s.workflow entity_id (setQue w i que1)
        (r.1, r.2, [entity_id])

/-- The loop of `Coordinator.update` over the system list: update each system
in registration order; an exception stops the loop and propagates. -/
def updateGo (globalEntity : EntityID) : List Nat → Coordinator → Coordinator × Option Err
  | [], w => (w, none)
  | i :: is, w =>
    match sysUpdate globalEntity i w with
    | (w1, none, _) => updateGo globalEntity is w1
    | (w1, some e, _) => (w1, some e)

/-- `Coordinator.update`: one tick — every system's `update`, in registration
order.  No operation in the model changes the length of the system list, so
iterating over the initial indices matches Python's iteration over the live
list. -/
def Coordinator.update (w : Coordinator) (globalEntity : EntityID) :
    Coordinator × Option Err :=
  updateGo globalEntity (List.range w.systems.length) w

/-- `Coordinator.add_system`: append to the system list. -/
def Coordinator.add_system (w : Coordinator) (s : OnChangeSystem) : Coordinator :=
  { w with systems := w.systems ++ [s] }

/-- The public Coordinator operations a client can issue. -/
inductive Op where
  | add_entity
  | remove_entity (entity_id : EntityID)
  | add_component (entity_id : EntityID) (component : Component)
  | get_components (entity_id : EntityID) (comp_type : ComponentType)
  | update
deriving DecidableEq, Repr

/-- One client operation: the resulting (possibly partially-mutated) state and
the exception, if one was raised. -/
def step (globalEntity : EntityID) (w : Coordinator) : Op → Coordinator × Option Err
  | .add_entity => (w.add_entity.2, none)
  | .remove_entity i => w.remove_entity i
  | .add_component i c => w.add_component i c
  | .get_components i t =>
    match w.get_components i t with
    | (.ok _, w1) => (w1, none)
    | (.error e, w1) => (w1, some e)
  | .update => w.update globalEntity

/-- Run a sequence of operations, continuing after exceptions (a Python caller
that catches them keeps the mutated coordinator). -/
def runAll (globalEntity : EntityID) (w : Coordinator) (ops : List Op) : Coordinator :=
  ops.foldl (fun w1 op => (step globalEntity w1 op).1) w

/-- Run a sequence of operations, `none` as soon as any of them raises. -/
def runOk (globalEntity : EntityID) (w : Coordinator) : List Op → Option Coordinator
  | [] => some w
  | op :: ops =>
    match step globalEntity w op with
    | (w1, none) => runOk globalEntity w1 ops
    | (_, some _) => none

/-- A freshly constructed Coordinator after `add_system` registrations:
given masks and workflows, empty queues, no entities, a fresh generator and no
storages. -/
def initCoordinator (systems : List (SignatureMask × Workflow)) : Coordinator :=
  { systems := systems.map (fun p => ⟨p.1, p.2, []⟩)
    entities := []
    id_generator := ⟨0, []⟩
    component_storages := [] }

/-- The components of the given type stored for the given entity (empty when
the tag has no storage or the entity has no entry). -/
def storedComponents (w : Coordinator) (t : ComponentType) (i : EntityID) :
    List Component :=
  match dictGet w.component_storages t with
  | none => []
  | some s => (dictGet s.database i).getD []

/-- The signature-mirrors-storage invariant of the spec: for every entity in
the table, its cached signature holds a tag iff at least one component of that
type is stored for it. -/
def SigInv (w : Coordinator) : Prop :=
  ∀ i sig, dictGet w.entities i = some sig →
    ∀ t, t ∈ sig ↔ storedComponents w t i ≠ []

/-- Storage well-formedness: the storage registered under a tag has that tag
(the Coordinator only ever creates matching storages). -/
def StoragesWF (w : Coordinator) : Prop :=
  ∀ t s, dictGet w.component_storages t = some s → s.comp_type = t

/-- The generator/liveness invariant backing id uniqueness: no live id is in
the dead pool, live and dead ids are below the counter, and the dead pool is
duplicate-free. -/
def GenInv (w : Coordinator) : Prop :=
  (∀ i, (dictGet w.entities i).isSome → i ∉ w.id_generator.dead_ids) ∧
  (∀ i, (dictGet w.entities i).isSome → i < w.id_generator.counter) ∧
  w.id_generator.dead_ids.Nodup ∧
  (∀ i ∈ w.id_generator.dead_ids, i < w.id_generator.counter)

/-- Strengthening of `SigInv` used for the induction: a type tag has
components stored for an id exactly when the id is in the entity table and
its cached signature holds the tag (so ids outside the table have nothing
stored). -/
def SigInvStrong (w : Coordinator) : Prop :=
  ∀ i t, storedComponents w t i ≠ [] ↔
    ∃ sig, dictGet w.entities i = some sig ∧ t ∈ sig

/-- The combined invariant maintained by every successful operation. -/
def MasterInv (w : Coordinator) : Prop :=
  SigInvStrong w ∧ GenInv w

/-- The demo's first mask: `required("number") AND blacklist("char")`. -/
def numberMask : SignatureMask :=
  build_signature_mask [create_min_rule ["number"], create_bl_rule ["char"]]

/-- The demo's second mask: `required("char") AND blacklist("ascii")`. -/
def charMask : SignatureMask :=
  build_signature_mask [create_min_rule ["char"], create_bl_rule ["ascii"]]

/-- The demo coordinator right after both systems are registered. -/
def demoInit : Coordinator :=
  initCoordinator [(numberMask, .num_to_char), (charMask, .char_to_ascii)]

/-- The demo world after `entity = add_entity()` (which yields id 0) and
`add_component(entity, Component("number", 3))`. -/
def demoAfterSetup : Coordinator :=
  runAll 0 demoInit [.add_entity, .add_component 0 (Component.mk "number" (.int 3))]

/-- The demo world after the first `update()`. -/
def demoU1 : Coordinator := (demoAfterSetup.update 0).1

/-- The demo world after the second `update()`. -/
def demoU2 : Coordinator := (demoU1.update 0).1

/-- A trace whose final `remove_entity(1)` fails partway: entity 1 has an
entry in storage "a" but not in storage "b", so the purge loop deletes its
"a" entry and then raises a KeyError, leaving entity 1 in the table with the
stale signature `{"a"}`. -/
def c1world : Coordinator :=
  runAll 0 (initCoordinator [])
    [.add_entity, .add_component 0 (Component.mk "a" (.int 0)),
     .add_component 0 (Component.mk "b" (.int 0)),
     .add_entity, .add_component 1 (Component.mk "a" (.int 0)),
     .remove_entity 1]

/-- A coordinator with one storage (for "a") holding one component of the
sole entity 0. -/
def c3world : Coordinator :=
  runAll 0 (initCoordinator [])
    [.add_entity, .add_component 0 (Component.mk "a" (.int 3))]

/-- A coordinator whose single reactive system still queues entity 0 even
though the entity has been destroyed: the system enqueued 0 when the "a"
component was attached, and `remove_entity` does not notify systems. -/
def c4world : Coordinator :=
  runAll 0 (initCoordinator
      [(build_signature_mask [create_min_rule ["a"]], .num_to_char)])
    [.add_entity, .add_component 0 (Component.mk "a" (.int 0)),
     .remove_entity 0]

/-- A trace whose final `remove_entity(1)` fails at once (entity 1 has no
entry in storage "a"): the id 1 has already been added to the dead pool while
entity 1 stays in the table. -/
def c6world : Coordinator :=
  runAll 0 (initCoordinator [])
    [.add_entity, .add_component 0 (Component.mk "a" (.int 0)),
     .add_entity, .remove_entity 1]

/-- A world used to witness the non-atomic failure of `add_component`: no
entities, no storages. -/
def c10world : Coordinator :=
  { systems := [], entities := [], id_generator := ⟨0, []⟩, component_storages := [] }

/-- A world with one system whose queued entity is live but no longer matches
the system's mask. -/
def c5world : Coordinator :=
  { systems := [⟨build_signature_mask [create_min_rule ["a"]], .num_to_char, [5]⟩]
    entities := [(5, ["x"])]
    id_generator := ⟨6, []⟩
    component_storages := [] }

/-! ## Association-list (Python dict) lemmas -/

theorem dictGet_dictSet_self {α β : Type} [DecidableEq α] (d : List (α × β)) (k : α) (v : β) :
    dictGet (dictSet d k v) k = some v := by
  induction d with
  | nil => simp [dictSet, dictGet]
  | cons p d ih =>
    by_cases h : p.1 = k
    · simp [dictSet, h, dictGet]
    · simp [dictSet, h, dictGet, ih]

theorem dictGet_dictSet_ne {α β : Type} [DecidableEq α] (d : List (α × β)) (k j : α) (v : β)
    (h : j ≠ k) : dictGet (dictSet d k v) j = dictGet d j := by
  induction d with
  | nil => simp [dictSet, dictGet, Ne.symm h]
  | cons p d ih =>
    by_cases hp : p.1 = k
    · simp [dictSet, hp, dictGet, Ne.symm h]
    · simp [dictSet, hp, dictGet, ih]

theorem isSome_dictGet_dictSet {α β : Type} [DecidableEq α] (d : List (α × β)) (k j : α)
    (v : β) : (dictGet (dictSet d k v) j).isSome = true ↔
      j = k ∨ (dictGet d j).isSome = true := by
  by_cases h : j = k
  · subst h; simp [dictGet_dictSet_self]
  · rw [dictGet_dictSet_ne d k j v h]
    simp [h]

theorem dictGet_dictDropKey_self {α β : Type} [DecidableEq α] (d : List (α × β)) (k : α) :
    dictGet (dictDropKey d k) k = none := by
  induction d with
  | nil => simp [dictDropKey, dictGet]
  | cons p d ih =>
    by_cases h : p.1 = k
    · simp [dictDropKey, h, ih]
    · simp [dictDropKey, h, dictGet, ih]

theorem dictGet_dictDropKey_ne {α β : Type} [DecidableEq α] (d : List (α × β)) (k j : α)
    (h : j ≠ k) : dictGet (dictDropKey d k) j = dictGet d j := by
  induction d with
  | nil => simp [dictDropKey]
  | cons p d ih =>
    by_cases hp : p.1 = k
    · simp [dictDropKey, hp, dictGet, Ne.symm h, ih]
    · simp [dictDropKey, hp, dictGet, ih]

theorem dictGet_append_single {α β : Type} [DecidableEq α] (d : List (α × β)) (k j : α)
    (v : β) : dictGet (d ++ [(k, v)]) j =
      match dictGet d j with
      | some x => some x
      | none => if k = j then some v else none := by
  induction d with
  | nil => simp [dictGet]
  | cons p d ih =>
    by_cases hj : p.1 = j <;> simp [dictGet, hj, ih]

theorem dictDel_eq_some {α β : Type} [DecidableEq α] {d d' : List (α × β)} {k : α}
    (h : dictDel d k = some d') :
    (dictGet d k).isSome = true ∧ d' = dictDropKey d k := by
  unfold dictDel at h
  by_cases hs : (dictGet d k).isSome = true
  · rw [if_pos hs] at h
    exact ⟨hs, (Option.some_inj.mp h).symm⟩
  · rw [if_neg hs] at h
    exact absurd h (by simp)

theorem dictDel_isSome {α β : Type} [DecidableEq α] (d : List (α × β)) (k : α)
    (h : (dictGet d k).isSome = true) :
    dictDel d k = some (dictDropKey d k) := by
  unfold dictDel
  rw [if_pos h]

theorem mem_sigAdd (s : Signature) (t u : ComponentType) :
    u ∈ sigAdd s t ↔ u ∈ s ∨ u = t := by
  unfold sigAdd
  by_cases h : t ∈ s
  · simp only [if_pos h]
    constructor
    · exact fun hu => Or.inl hu
    · rintro (hu | rfl)
      · exact hu
      · exact h
  · simp [if_neg h]

/-! ## C7 — mask conjunction -/

/-- C7: `SignatureMask.contains` is the conjunction of its rules, the result
does not depend on the order of the rules, and the mask
`required("a") AND blacklist("b")` accepts `{"a"}`, rejects `{"a","b"}` and
rejects `{}`. -/
theorem C7_mask_conjunction :
    (∀ (m : SignatureMask) (sig : Signature),
        m.contains sig = true ↔ ∀ r ∈ m.mask_rules, r.allows sig = true) ∧
    (∀ (rs rs' : List MaskRule) (sig : Signature), rs.Perm rs' →
        SignatureMask.contains ⟨rs⟩ sig = SignatureMask.contains ⟨rs'⟩ sig) ∧
    (build_signature_mask [create_min_rule ["a"], create_bl_rule ["b"]]).contains
      ["a"] = true ∧
    (build_signature_mask [create_min_rule ["a"], create_bl_rule ["b"]]).contains
      ["a", "b"] = false ∧
    (build_signature_mask [create_min_rule ["a"], create_bl_rule ["b"]]).contains
      [] = false := by
  refine ⟨?_, ?_, by decide, by decide, by decide⟩
  · intro m sig
    simp [SignatureMask.contains, List.all_eq_true]
  · intro rs rs' sig h
    have h1 : SignatureMask.contains ⟨rs⟩ sig = true ↔
        SignatureMask.contains ⟨rs'⟩ sig = true := by
      simp only [SignatureMask.contains, List.all_eq_true]
      exact ⟨fun H r hr => H r (h.mem_iff.mpr hr), fun H r hr => H r (h.mem_iff.mp hr)⟩
    cases hb : SignatureMask.contains ⟨rs⟩ sig <;>
      cases hb' : SignatureMask.contains ⟨rs'⟩ sig <;> simp_all

/-- Witness for C7 at a concrete permutation and signature. -/
theorem C7_witness :
    SignatureMask.contains
        ⟨[MaskRule.mk (create_min_rule ["a"]), MaskRule.mk (create_bl_rule ["b"])]⟩ ["a"] =
      SignatureMask.contains
        ⟨[MaskRule.mk (create_bl_rule ["b"]), MaskRule.mk (create_min_rule ["a"])]⟩ ["a"] :=
  C7_mask_conjunction.2.1 _ _ ["a"]
    (List.Perm.swap (MaskRule.mk (create_bl_rule ["b"]))
      (MaskRule.mk (create_min_rule ["a"])) [])

/-! ## C8 — whitelist subset semantics -/

/-- C8: a whitelist rule passes iff the signature is a subset of the rule's
tags; `whitelist("a","b")` accepts `{}`, `{"a"}`, `{"a","b"}` and rejects
`{"a","c"}`. -/
theorem C8_whitelist_subset :
    (∀ (args sig : List ComponentType),
        create_wl_rule args sig = true ↔ ∀ t ∈ sig, t ∈ args) ∧
    create_wl_rule ["a", "b"] [] = true ∧
    create_wl_rule ["a", "b"] ["a"] = true ∧
    create_wl_rule ["a", "b"] ["a", "b"] = true ∧
    create_wl_rule ["a", "b"] ["a", "c"] = false := by
  refine ⟨?_, by decide, by decide, by decide, by decide⟩
  intro args sig
  simp [create_wl_rule, List.all_eq_true]

/-- Witness for C8 at a concrete rule and signature. -/
theorem C8_witness : ∀ t ∈ ["b", "a"], t ∈ ["a", "b", "c"] :=
  (C8_whitelist_subset.1 ["a", "b", "c"] ["b", "a"]).mp (by decide)

/-! ## C9 — identifier generator -/

/-- C9: `get` pops the oldest dead id (FIFO) leaving the counter unchanged
when the recycle queue is non-empty, otherwise returns and advances the
counter; `add_dead` appends to the back of the queue. -/
theorem C9_generator :
    (∀ (g : IDGenerator) (d : Int) (rest : List Int), g.dead_ids = d :: rest →
        g.get = (d, { g with dead_ids := rest })) ∧
    (∀ g : IDGenerator, g.dead_ids = [] →
        g.get = (g.counter, { g with counter := g.counter + 1 })) ∧
    (∀ (g : IDGenerator) (i : Int),
        g.add_dead i = { g with dead_ids := g.dead_ids ++ [i] }) := by
  refine ⟨?_, ?_, ?_⟩
  · intro g d rest h
    simp [IDGenerator.get, h]
  · intro g h
    simp [IDGenerator.get, h]
  · intro g i
    rfl

/-- Witness for C9 at concrete generator states. -/
theorem C9_witness :
    IDGenerator.get ⟨5, [2, 3]⟩ = (2, ⟨5, [3]⟩) ∧
    IDGenerator.get ⟨5, []⟩ = (5, ⟨5 + 1, []⟩) :=
  ⟨C9_generator.1 ⟨5, [2, 3]⟩ 2 [3] rfl, C9_generator.2.1 ⟨5, []⟩ rfl⟩

/-! ## C3 — component queries -/

/-- C3 (amended): the storage's `get` never raises — the defaultdict lookup
returns the entity's (possibly empty) list; `get_components` raises NotFound
exactly when the type tag has no storage, and otherwise returns the stored
list, empty when the entity has no entry. -/
theorem C3_get_amended :
    (∀ (s : ComponentStorage) (i : EntityID),
        (s.getitem i).1 = (dictGet s.database i).getD []) ∧
    (∀ (w : Coordinator) (i : EntityID) (t : ComponentType),
        dictGet w.component_storages t = none →
        w.get_components i t = (.error .keyError, w)) ∧
    (∀ (w : Coordinator) (i : EntityID) (t : ComponentType) (s : ComponentStorage),
        dictGet w.component_storages t = some s →
        (w.get_components i t).1 = .ok ((dictGet s.database i).getD [])) := by
  refine ⟨?_, ?_, ?_⟩
  · intro s i
    unfold ComponentStorage.getitem
    cases h : dictGet s.database i <;> simp [h]
  · intro w i t h
    unfold Coordinator.get_components
    rw [h]
  · intro w i t s h
    unfold Coordinator.get_components ComponentStorage.getitem
    rw [h]
    cases h2 : dictGet s.database i <;> simp [h2]

/-- C3 counterexample: in `c3world` the storage for "a" exists and entity 5
has no entry in it, yet `get_components(5, "a")` returns `[]` instead of
raising NotFound. -/
theorem C3_counterexample :
    (dictGet c3world.component_storages "a").isSome = true ∧
    dictGet c3world.entities 5 = none ∧
    (Coordinator.get_components c3world 5 "a").1 = .ok [] :=
  ⟨rfl, rfl, rfl⟩

/-- Witness for C3 at concrete inputs. -/
theorem C3_witness :
    Coordinator.get_components c3world 0 "b" = (.error .keyError, c3world) ∧
    (Coordinator.get_components c3world 5 "a").1 =
      .ok ((dictGet [((0 : EntityID), [Component.mk "a" (.int 3)])] (5 : EntityID)).getD []) :=
  ⟨C3_get_amended.2.1 c3world 0 "b" rfl,
   C3_get_amended.2.2 c3world 5 "a" ⟨"a", [(0, [Component.mk "a" (.int 3)])]⟩ rfl⟩

/-! ## C10 — non-atomic failure of add_component -/

/-- A successful `ComponentStorage.add` appends the component to the entity's
list (created empty when absent) and touches nothing else. -/
theorem storage_add_ok (s : ComponentStorage) (i : EntityID) (c : Component)
    (h : c.comp_type = s.comp_type) :
    (s.add i c).2 = none ∧
    (s.add i c).1.comp_type = s.comp_type ∧
    dictGet (s.add i c).1.database i = some ((dictGet s.database i).getD [] ++ [c]) ∧
    (∀ j, j ≠ i → dictGet (s.add i c).1.database j = dictGet s.database j) := by
  unfold ComponentStorage.add ComponentStorage.getitem
  rw [if_neg (by simp [h])]
  cases hdb : dictGet s.database i with
  | some l =>
    refine ⟨rfl, rfl, ?_, ?_⟩
    · simp [hdb, dictGet_dictSet_self]
    · intro j hj
      simp [hdb, dictGet_dictSet_ne _ _ _ _ hj]
  | none =>
    refine ⟨rfl, rfl, ?_, ?_⟩
    · simp [hdb, dictGet_dictSet_self]
    · intro j hj
      simp only [hdb]
      rw [dictGet_dictSet_ne _ _ _ _ hj, dictGet_append_single]
      cases h2 : dictGet s.database j <;> simp [h2, Ne.symm hj]

/-- C10: adding a component for an id that is not in the entity table raises
KeyError, but only after the component has been appended to the storage: the
storage keeps the new component under the unknown id, while the entity table,
the generator and the systems (hence notifications) are untouched. -/
theorem C10_nonatomic :
    ∀ (w : Coordinator) (i : EntityID) (c : Component),
      StoragesWF w → dictGet w.entities i = none →
      (w.add_component i c).2 = some .keyError ∧
      (w.add_component i c).1.systems = w.systems ∧
      (w.add_component i c).1.entities = w.entities ∧
      (w.add_component i c).1.id_generator = w.id_generator ∧
      storedComponents (w.add_component i c).1 c.comp_type i =
        storedComponents w c.comp_type i ++ [c] := by
  intro w i c hwf hi
  unfold Coordinator.add_component
  cases hst : dictGet w.component_storages c.comp_type with
  | some s =>
    have hadd := storage_add_ok s i c (hwf c.comp_type s hst).symm
    simp only [hst]
    rcases ha : s.add i c with ⟨s1, e1⟩
    rw [ha] at hadd
    cases e1 with
    | some e => exact absurd hadd.1 (by simp)
    | none =>
      simp only [setStorage, hi]
      refine ⟨trivial, trivial, trivial, trivial, ?_⟩
      unfold storedComponents
      simp only [dictGet_dictSet_self, hst]
      rw [hadd.2.2.1]
      simp
  | none =>
    have hadd := storage_add_ok (ComponentStorage.mk c.comp_type []) i c rfl
    simp only [hst]
    rcases ha : ComponentStorage.add (ComponentStorage.mk c.comp_type []) i c with ⟨s1, e1⟩
    rw [ha] at hadd
    cases e1 with
    | some e => exact absurd hadd.1 (by simp)
    | none =>
      simp only [setStorage, hi]
      refine ⟨trivial, trivial, trivial, trivial, ?_⟩
      unfold storedComponents
      simp only [dictGet_dictSet_self, hst]
      rw [hadd.2.2.1]
      simp [dictGet]

/-- Witness for C10 at a concrete world: an empty coordinator, the unknown
id 7 and the component `("z", 1)`. -/
theorem C10_witness :
    (c10world.add_component 7 (Component.mk "z" (.int 1))).2 = some .keyError ∧
    (c10world.add_component 7 (Component.mk "z" (.int 1))).1.systems = c10world.systems ∧
    (c10world.add_component 7 (Component.mk "z" (.int 1))).1.entities = c10world.entities ∧
    (c10world.add_component 7 (Component.mk "z" (.int 1))).1.id_generator =
      c10world.id_generator ∧
    storedComponents (c10world.add_component 7 (Component.mk "z" (.int 1))).1 "z" 7 =
      storedComponents c10world "z" 7 ++ [Component.mk "z" (.int 1)] :=
  C10_nonatomic c10world 7 (Component.mk "z" (.int 1))
    (fun t s h => by simp [c10world, dictGet] at h) rfl

/-! ## C5 — reactive throughput bound -/

/-- If every queued id is live but fails the mask, the dequeue loop empties
the queue and selects nothing. -/
theorem selectFromQueue_nomatch (mask : SignatureMask)
    (ents : List (EntityID × Signature)) (que : List EntityID)
    (h : ∀ x ∈ que, ∃ sig, dictGet ents x = some sig ∧ mask.contains sig = false) :
    selectFromQueue mask ents que = ([], none, none) := by
  induction que with
  | nil => rfl
  | cons a rest ih =>
    obtain ⟨sig, hget, hc⟩ := h a (by simp)
    simp [selectFromQueue, hget, hc, ih (fun x hx => h x (by simp [hx]))]

/-- C5: one `update()` of an OnChangeSystem invokes the workflow at most
once; with an empty queue it does nothing, and when no queued id matches it
invokes the workflow zero times, raises nothing, and leaves the entity table,
the storages and the generator untouched (only queues change). -/
theorem C5_throughput :
    (∀ (g : EntityID) (i : Nat) (w : Coordinator), (sysUpdate g i w).2.2.length ≤ 1) ∧
    (∀ (g : EntityID) (i : Nat) (w : Coordinator) (s : OnChangeSystem),
        w.systems.get? i = some s → s.que = [] → sysUpdate g i w = (w, none, [])) ∧
    (∀ (g : EntityID) (i : Nat) (w : Coordinator) (s : OnChangeSystem),
        w.systems.get? i = some s →
        (∀ x ∈ s.que, ∃ sig, dictGet w.entities x = some sig ∧
            s.signature_mask.contains sig = false) →
        (sysUpdate g i w).2.1 = none ∧ (sysUpdate g i w).2.2 = [] ∧
        (sysUpdate g i w).1.entities = w.entities ∧
        (sysUpdate g i w).1.component_storages = w.component_storages ∧
        (sysUpdate g i w).1.id_generator = w.id_generator) := by
  refine ⟨?_, ?_, ?_⟩
  · intro g i w
    unfold sysUpdate
    cases w.systems.get? i with
    | none => simp
    | some s =>
      by_cases hq : s.que = []
      · simp [hq]
      · rcases hsel : selectFromQueue s.signature_mask w.entities s.que with ⟨que1, sel, err⟩
        cases err <;> cases sel <;> simp [hq, hsel]
  · intro g i w s hs hq
    unfold sysUpdate
    rw [hs]
    simp [hq]
  · intro g i w s hs hmatch
    have hsel := selectFromQueue_nomatch s.signature_mask w.entities s.que hmatch
    unfold sysUpdate
    rw [hs]
    by_cases hq : s.que = []
    · simp [hq]
    · simp [hq, hsel, setQue]

/-- Witness for C5 at `c5world`: the queued entity 5 is live with signature
`{"x"}`, which fails the mask `required("a")`. -/
theorem C5_witness :
    (sysUpdate 0 0 c5world).2.1 = none ∧ (sysUpdate 0 0 c5world).2.2 = [] ∧
    (sysUpdate 0 0 c5world).1.entities = c5world.entities ∧
    (sysUpdate 0 0 c5world).1.component_storages = c5world.component_storages ∧
    (sysUpdate 0 0 c5world).1.id_generator = c5world.id_generator :=
  C5_throughput.2.2 0 0 c5world
    ⟨build_signature_mask [create_min_rule ["a"]], .num_to_char, [5]⟩ rfl
    (fun x hx => by
      rw [List.mem_singleton.mp hx]
      exact ⟨["x"], rfl, by decide⟩)

/-! ## C4 — stale filtering -/

/-- C4 counterexample: `c4world` still queues the destroyed entity 0 (removal
does not notify systems), and the next `update()` raises KeyError instead of
silently skipping the stale id. -/
theorem C4_counterexample :
    c4world.systems.map (fun s => s.que) = [[0]] ∧
    dictGet c4world.entities 0 = none ∧
    (step 0 c4world .update).2 = some .keyError :=
  ⟨rfl, rfl, rfl⟩

/-- C4 (amended): the dequeue loop discards (without re-enqueueing) every
dequeued id that is still live but no longer satisfies the mask; the workflow
is invoked exactly on the first dequeued id that is live and satisfies the
mask; but a dequeued id whose entity has been destroyed raises KeyError
instead of being skipped. -/
theorem C4_stale_amended :
    (∀ (mask : SignatureMask) (ents : List (EntityID × Signature))
        (que que1 : List EntityID) (id : EntityID),
        selectFromQueue mask ents que = (que1, some id, none) →
        ∃ pre, que = pre ++ id :: que1 ∧
          (∀ x ∈ pre, ∃ sig, dictGet ents x = some sig ∧ mask.contains sig = false) ∧
          (∃ sig, dictGet ents id = some sig ∧ mask.contains sig = true)) ∧
    (∀ (mask : SignatureMask) (ents : List (EntityID × Signature))
        (que que1 : List EntityID) (e : Err),
        selectFromQueue mask ents que = (que1, none, some e) →
        e = .keyError ∧ ∃ pre bad, que = pre ++ bad :: que1 ∧
          (∀ x ∈ pre, ∃ sig, dictGet ents x = some sig ∧ mask.contains sig = false) ∧
          dictGet ents bad = none) ∧
    (∀ (g : EntityID) (i : Nat) (w : Coordinator) (s : OnChangeSystem)
        (que1 : List EntityID) (id : EntityID),
        w.systems.get? i = some s →
        selectFromQueue s.signature_mask w.entities s.que = (que1, some id, none) →
        (sysUpdate g i w).2.2 = [id]) := by
  refine ⟨?_, ?_, ?_⟩
  · intro mask ents que
    induction que with
    | nil =>
      intro que1 id h
      simp [selectFromQueue] at h
    | cons a rest ih =>
      intro que1 id h
      unfold selectFromQueue at h
      cases hga : dictGet ents a with
      | none =>
        rw [hga] at h
        simp at h
      | some sig =>
        rw [hga] at h
        cases hc : mask.contains sig with
        | true =>
          simp [hc] at h
          obtain ⟨h1, h2⟩ := h
          subst h1
          subst h2
          exact ⟨[], by simp, by simp, sig, hga, hc⟩
        | false =>
          simp [hc] at h
          obtain ⟨pre, hq, hpre, hid⟩ := ih que1 id h
          refine ⟨a :: pre, by simp [hq], ?_, hid⟩
          intro x hx
          rcases List.mem_cons.mp hx with hxa | hxp
          · subst hxa
            exact ⟨sig, hga, hc⟩
          · exact hpre x hxp
  · intro mask ents que
    induction que with
    | nil =>
      intro que1 e h
      simp [selectFromQueue] at h
    | cons a rest ih =>
      intro que1 e h
      unfold selectFromQueue at h
      cases hga : dictGet ents a with
      | none =>
        rw [hga] at h
        simp at h
        obtain ⟨h1, h2⟩ := h
        subst h1
        exact ⟨h2.symm, [], a, by simp, by simp, hga⟩
      | some sig =>
        rw [hga] at h
        cases hc : mask.contains sig with
        | true =>
          simp [hc] at h
        | false =>
          simp [hc] at h
          obtain ⟨he, pre, bad, hq, hpre, hbad⟩ := ih que1 e h
          refine ⟨he, a :: pre, bad, by simp [hq], ?_, hbad⟩
          intro x hx
          rcases List.mem_cons.mp hx with hxa | hxp
          · subst hxa
            exact ⟨sig, hga, hc⟩
          · exact hpre x hxp
  · intro g i w s que1 id hs hsel
    have hq : ¬ s.que = [] := by
      intro hnil
      rw [hnil] at hsel
      simp [selectFromQueue] at hsel
    unfold sysUpdate
    rw [hs]
    simp [hq, hsel]

/-- Witness for C4 at a concrete queue: id 3 is live but fails the mask and
is discarded; id 7 is live, matches, and is selected. -/
theorem C4_witness :
    ∃ pre, [(3 : EntityID), 7] = pre ++ (7 : EntityID) :: ([] : List EntityID) ∧
      (∀ x ∈ pre, ∃ sig,
          dictGet ([(3, ["x"]), (7, ["a"])] : List (EntityID × Signature)) x = some sig ∧
          (build_signature_mask [create_min_rule ["a"]]).contains sig = false) ∧
      (∃ sig,
          dictGet ([(3, ["x"]), (7, ["a"])] : List (EntityID × Signature)) 7 = some sig ∧
          (build_signature_mask [create_min_rule ["a"]]).contains sig = true) :=
  C4_stale_amended.1 (build_signature_mask [create_min_rule ["a"]])
    [(3, ["x"]), (7, ["a"])] [3, 7] [] 7 rfl

/-! ## C2 — end-to-end demo scenario -/

/-- C2 counterexample: contrary to the claim, the very first `update()`
already attaches the ascii component: S1 runs first, its workflow attaches
"char", which enqueues E on S2 (registered later), and S2 processes E within
the same tick. -/
theorem C2_counterexample :
    storedComponents (demoAfterSetup.update 0).1 "ascii" 0 =
      [Component.mk "ascii" (.int 51)] := rfl

/-- C2 (amended): entity E gets id 0; the first `update()` raises nothing
and leaves E with exactly `number=3`, `char="3"` and `ascii=51` (the cascade
completes within one tick because S2 is registered after S1); the second
`update()` raises nothing and changes no component, and both queues end
empty. -/
theorem C2_cascade_amended :
    demoInit.add_entity.1 = 0 ∧
    (demoAfterSetup.update 0).2 = none ∧
    dictGet demoU1.entities 0 = some ["number", "char", "ascii"] ∧
    storedComponents demoU1 "number" 0 = [Component.mk "number" (.int 3)] ∧
    storedComponents demoU1 "char" 0 = [Component.mk "char" (.str "3")] ∧
    storedComponents demoU1 "ascii" 0 = [Component.mk "ascii" (.int 51)] ∧
    (demoU1.update 0).2 = none ∧
    storedComponents demoU2 "number" 0 = [Component.mk "number" (.int 3)] ∧
    storedComponents demoU2 "char" 0 = [Component.mk "char" (.str "3")] ∧
    storedComponents demoU2 "ascii" 0 = [Component.mk "ascii" (.int 51)] ∧
    demoU2.systems.map (fun s => s.que) = [[], []] :=
  ⟨rfl, rfl, rfl, rfl, rfl, rfl, rfl, rfl, rfl, rfl, rfl⟩

/-! ## Invariant machinery shared by C1 and C6 -/

theorem dictSet_self_of_get {α β : Type} [DecidableEq α] {d : List (α × β)} {k : α} {v : β}
    (h : dictGet d k = some v) : dictSet d k v = d := by
  induction d with
  | nil => simp [dictGet] at h
  | cons p d ih =>
    obtain ⟨p1, p2⟩ := p
    by_cases hp : p1 = k
    · simp [dictGet, hp] at h
      simp [dictSet, hp, h]
    · simp [dictGet, hp] at h
      simp [dictSet, hp, ih h]

theorem dictGet_map_snd {α β γ : Type} [DecidableEq α] (f : β → γ) (d : List (α × β))
    (k : α) : dictGet (d.map (fun p => (p.1, f p.2))) k = (dictGet d k).map f := by
  induction d with
  | nil => simp [dictGet]
  | cons p d ih =>
    by_cases hp : p.1 = k <;> simp [dictGet, hp, ih]

theorem isSome_dictGet_dictDropKey {α β : Type} [DecidableEq α] (d : List (α × β))
    (k j : α) : (dictGet (dictDropKey d k) j).isSome = true ↔
      j ≠ k ∧ (dictGet d j).isSome = true := by
  by_cases hj : j = k
  · subst hj
    simp [dictGet_dictDropKey_self]
  · rw [dictGet_dictDropKey_ne d k j hj]
    simp [hj]

theorem idGet_cons (g : IDGenerator) (d : Int) (rest : List Int)
    (h : g.dead_ids = d :: rest) : g.get = (d, { g with dead_ids := rest }) := by
  simp [IDGenerator.get, h]

theorem idGet_nil (g : IDGenerator) (h : g.dead_ids = []) :
    g.get = (g.counter, { g with counter := g.counter + 1 }) := by
  simp [IDGenerator.get, h]

theorem sigInvStrong_congr (w w' : Coordinator) (he : w'.entities = w.entities)
    (hs : ∀ t j, storedComponents w' t j = storedComponents w t j) :
    SigInvStrong w → SigInvStrong w' := by
  intro h i t
  rw [hs t i, he]
  exact h i t

theorem genInv_keys (w w' : Coordinator)
    (hk : ∀ j, (dictGet w'.entities j).isSome = (dictGet w.entities j).isSome)
    (hg : w'.id_generator = w.id_generator) : GenInv w → GenInv w' := by
  intro h
  obtain ⟨h1, h2, h3, h4⟩ := h
  refine ⟨fun i hi => ?_, fun i hi => ?_, ?_, ?_⟩
  · rw [hg]
    exact h1 i ((hk i) ▸ hi)
  · rw [hg]
    exact h2 i ((hk i) ▸ hi)
  · rw [hg]
    exact h3
  · rw [hg]
    exact h4

theorem masterInv_congr (w w' : Coordinator) (he : w'.entities = w.entities)
    (hg : w'.id_generator = w.id_generator)
    (hs : ∀ t j, storedComponents w' t j = storedComponents w t j) :
    MasterInv w → MasterInv w' := fun h =>
  ⟨sigInvStrong_congr w w' he hs h.1, genInv_keys w w' (fun j => by rw [he]) hg h.2⟩

/-- Lookup in a storage dict whose databases were all purged of an id. -/
theorem dictGet_map_purge (i : EntityID) (ss : List (ComponentType × ComponentStorage))
    (t : ComponentType) :
    dictGet (ss.map (fun p =>
        (p.1, ComponentStorage.mk p.2.comp_type (dictDropKey p.2.database i)))) t =
      (dictGet ss t).map
        (fun s => ComponentStorage.mk s.comp_type (dictDropKey s.database i)) := by
  induction ss with
  | nil => simp [dictGet]
  | cons p rest ih =>
    by_cases hp : p.1 = t <;> simp [dictGet, hp, ih]

/-- A successful `ComponentStorage.remove_entity` drops exactly the entity's
entry. -/
theorem storage_remove_ok (s : ComponentStorage) (i : EntityID) (s1 : ComponentStorage)
    (h : s.remove_entity i = (s1, none)) :
    s1 = ComponentStorage.mk s.comp_type (dictDropKey s.database i) := by
  unfold ComponentStorage.remove_entity at h
  cases hd : dictDel s.database i with
  | some db =>
    rw [hd] at h
    obtain ⟨-, hdb⟩ := dictDel_eq_some hd
    simp at h
    rw [← h, hdb]
  | none =>
    rw [hd] at h
    simp at h

/-- A successful purge loop drops the entity's entry from every storage. -/
theorem purgeStorages_ok (i : EntityID) :
    ∀ (ss ss' : List (ComponentType × ComponentStorage)),
      purgeStorages ss i = (ss', none) →
      ss' = ss.map (fun p =>
        (p.1, ComponentStorage.mk p.2.comp_type (dictDropKey p.2.database i))) := by
  intro ss
  induction ss with
  | nil =>
    intro ss' h
    simp [purgeStorages] at h
    subst h
    rfl
  | cons p rest ih =>
    intro ss' h
    unfold purgeStorages at h
    rcases hr : p.2.remove_entity i with ⟨s1, e1⟩
    rw [hr] at h
    cases e1 with
    | some e => simp at h
    | none =>
      rcases hp : purgeStorages rest i with ⟨rest', e2⟩
      rw [hp] at h
      simp at h
      obtain ⟨hss, he2⟩ := h
      cases e2 with
      | some e => exact absurd he2 (by simp)
      | none =>
        rw [← hss, ih rest' hp, storage_remove_ok p.2 i s1 hr]
        simp

/-- A successful `Coordinator.remove_entity`: the entity was live, its table
entry is gone, the id went to the dead pool, every storage lost the entity's
entry and nothing else changed. -/
theorem remove_entity_ok (w : Coordinator) (i : EntityID) (w' : Coordinator)
    (h : w.remove_entity i = (w', none)) :
    (dictGet w.entities i).isSome = true ∧
    w'.systems = w.systems ∧
    w'.entities = dictDropKey w.entities i ∧
    w'.id_generator = w.id_generator.add_dead i ∧
    (∀ t j, j ≠ i → storedComponents w' t j = storedComponents w t j) ∧
    (∀ t, storedComponents w' t i = []) := by
  unfold Coordinator.remove_entity at h
  dsimp only at h
  rcases hp : purgeStorages w.component_storages i with ⟨ss, e⟩
  rw [hp] at h
  cases e with
  | some e1 => simp at h
  | none =>
    cases hd : dictDel w.entities i with
    | none =>
      rw [hd] at h
      simp at h
    | some es =>
      rw [hd] at h
      simp at h
      obtain ⟨hsome, hes⟩ := dictDel_eq_some hd
      have hss := purgeStorages_ok i w.component_storages ss hp
      have hw' : w' = { w with
          id_generator := w.id_generator.add_dead i
          component_storages := ss
          entities := es } := h.symm
      subst hw'
      refine ⟨hsome, rfl, by rw [hes], rfl, ?_, ?_⟩
      · intro t j hj
        unfold storedComponents
        simp only [hss, dictGet_map_purge]
        cases h2 : dictGet w.component_storages t with
        | none => simp [h2]
        | some s => simp [h2, dictGet_dictDropKey_ne s.database i j hj]
      · intro t
        unfold storedComponents
        simp only [hss, dictGet_map_purge]
        cases h2 : dictGet w.component_storages t with
        | none => simp [h2]
        | some s => simp [h2, dictGet_dictDropKey_self]

/-- `get_components` never changes the entity table, the generator or any
stored component list (it can only create empty defaultdict entries). -/
theorem get_components_effects (w : Coordinator) (i : EntityID) (t : ComponentType) :
    (w.get_components i t).2.systems = w.systems ∧
    (w.get_components i t).2.entities = w.entities ∧
    (w.get_components i t).2.id_generator = w.id_generator ∧
    ∀ u j, storedComponents (w.get_components i t).2 u j = storedComponents w u j := by
  unfold Coordinator.get_components
  cases hst : dictGet w.component_storages t with
  | none => exact ⟨rfl, rfl, rfl, fun u j => rfl⟩
  | some s =>
    unfold ComponentStorage.getitem
    cases hdb : dictGet s.database i with
    | some l =>
      have heq : dictSet w.component_storages t s = w.component_storages :=
        dictSet_self_of_get hst
      refine ⟨rfl, rfl, rfl, fun u j => ?_⟩
      unfold storedComponents setStorage
      simp only [hdb]
      rw [heq]
    | none =>
      refine ⟨rfl, rfl, rfl, fun u j => ?_⟩
      unfold storedComponents setStorage
      simp only [hdb]
      by_cases hu : u = t
      · subst hu
        simp only [dictGet_dictSet_self, hst]
        by_cases hj : j = i
        · subst hj
          rw [dictGet_append_single]
          simp [hdb]
        · rw [dictGet_append_single]
          cases h2 : dictGet s.database j <;> simp [h2, Ne.symm hj]
      · simp only [dictGet_dictSet_ne _ _ _ _ hu]

/-- A `ComponentStorage.add` that does not raise implies the tags matched. -/
theorem storage_add_ok_tag (s : ComponentStorage) (i : EntityID) (c : Component)
    (h : (s.add i c).2 = none) : c.comp_type = s.comp_type := by
  by_cases ht : c.comp_type = s.comp_type
  · exact ht
  · simp [ComponentStorage.add, ht] at h

/-- A successful `Coordinator.add_component`: the entity was live, its cached
signature gains the tag, the component is appended to its list in the tag's
storage, the generator is untouched, and no other stored list changes. -/
theorem add_component_ok (w : Coordinator) (i : EntityID) (c : Component)
    (w' : Coordinator) (h : w.add_component i c = (w', none)) :
    ∃ sig, dictGet w.entities i = some sig ∧
      w'.entities = dictSet w.entities i (sigAdd sig c.comp_type) ∧
      w'.id_generator = w.id_generator ∧
      ∀ t j, storedComponents w' t j =
        if t = c.comp_type ∧ j = i then storedComponents w t j ++ [c]
        else storedComponents w t j := by
  unfold Coordinator.add_component at h
  cases hst : dictGet w.component_storages c.comp_type with
  | some s =>
    simp only [hst] at h
    rcases ha : s.add i c with ⟨s1, e1⟩
    rw [ha] at h
    cases e1 with
    | some e => simp at h
    | none =>
      have htag : c.comp_type = s.comp_type := storage_add_ok_tag s i c (by rw [ha])
      have hadd := storage_add_ok s i c htag
      rw [ha] at hadd
      simp only [setStorage] at h
      cases hent : dictGet w.entities i with
      | none =>
        rw [hent] at h
        simp at h
      | some sig =>
        rw [hent] at h
        unfold notifySystems Coordinator.get_entity_signature at h
        simp only [dictGet_dictSet_self] at h
        simp at h
        subst h
        refine ⟨sig, rfl, rfl, rfl, ?_⟩
        intro t j
        unfold storedComponents
        dsimp only
        by_cases htc : t = c.comp_type
        · subst htc
          simp only [dictGet_dictSet_self]
          by_cases hj : j = i
          · subst hj
            rw [hadd.2.2.1]
            simp [hst]
          · rw [hadd.2.2.2 j hj]
            simp [hst, hj]
        · simp only [dictGet_dictSet_ne _ _ _ _ htc]
          simp [htc]
  | none =>
    simp only [hst] at h
    rcases ha : ComponentStorage.add (ComponentStorage.mk c.comp_type []) i c with ⟨s1, e1⟩
    rw [ha] at h
    cases e1 with
    | some e => simp at h
    | none =>
      have hadd := storage_add_ok (ComponentStorage.mk c.comp_type []) i c rfl
      rw [ha] at hadd
      simp only [setStorage] at h
      cases hent : dictGet w.entities i with
      | none =>
        rw [hent] at h
        simp at h
      | some sig =>
        rw [hent] at h
        unfold notifySystems Coordinator.get_entity_signature at h
        simp only [dictGet_dictSet_self] at h
        simp at h
        subst h
        refine ⟨sig, rfl, rfl, rfl, ?_⟩
        intro t j
        unfold storedComponents
        dsimp only
        by_cases htc : t = c.comp_type
        · subst htc
          simp only [dictGet_dictSet_self]
          by_cases hj : j = i
          · subst hj
            rw [hadd.2.2.1]
            simp [hst, dictGet]
          · rw [hadd.2.2.2 j hj]
            simp [hst, hj, dictGet]
        · simp only [dictGet_dictSet_ne _ _ _ _ htc]
          simp [htc]

theorem masterInv_add_component (w : Coordinator) (i : EntityID) (c : Component)
    (w' : Coordinator) (h : w.add_component i c = (w', none)) :
    MasterInv w → MasterInv w' := by
  intro hM
  obtain ⟨hS, hG⟩ := hM
  obtain ⟨sig, hent, hents, hgen, hstored⟩ := add_component_ok w i c w' h
  constructor
  · intro j t
    rw [hstored t j, hents]
    by_cases hcase : t = c.comp_type ∧ j = i
    · obtain ⟨rfl, rfl⟩ := hcase
      rw [if_pos ⟨rfl, rfl⟩, dictGet_dictSet_self]
      constructor
      · intro hne
        exact ⟨sigAdd sig c.comp_type, rfl, (mem_sigAdd sig c.comp_type c.comp_type).mpr
          (Or.inr rfl)⟩
      · intro hex
        simp
    · rw [if_neg hcase]
      by_cases hj : j = i
      · subst hj
        have ht : t ≠ c.comp_type := fun hteq => hcase ⟨hteq, rfl⟩
        rw [dictGet_dictSet_self]
        constructor
        · intro hne
          obtain ⟨sig0, hsig0, htmem⟩ := (hS j t).mp hne
          rw [hent] at hsig0
          injection hsig0 with hsig0
          exact ⟨sigAdd sig c.comp_type, rfl,
            (mem_sigAdd sig c.comp_type t).mpr (Or.inl (hsig0.symm ▸ htmem))⟩
        · rintro ⟨sig', hsig', hmem⟩
          injection hsig' with hsig'
          subst hsig'
          rcases (mem_sigAdd sig c.comp_type t).mp hmem with hmem0 | hteq
          · exact (hS j t).mpr ⟨sig, hent, hmem0⟩
          · exact absurd hteq ht
      · rw [dictGet_dictSet_ne _ _ _ _ hj]
        exact hS j t
  · refine genInv_keys w w' (fun j => ?_) hgen hG
    rw [hents]
    by_cases hj : j = i
    · subst hj
      rw [dictGet_dictSet_self, hent]
      rfl
    · rw [dictGet_dictSet_ne _ _ _ _ hj]

theorem masterInv_add_entity (w : Coordinator) :
    MasterInv w → MasterInv w.add_entity.2 := by
  rintro ⟨hS, h1, h2, h3, h4⟩
  cases hdead : w.id_generator.dead_ids with
  | cons d rest =>
    have hw : w.add_entity.2 = { w with
        id_generator := { w.id_generator with dead_ids := rest }
        entities := dictSet w.entities d [] } := by
      simp [Coordinator.add_entity, idGet_cons w.id_generator d rest hdead]
    have hdlive : dictGet w.entities d = none := by
      by_cases hs : (dictGet w.entities d).isSome = true
      · exact absurd (by rw [hdead]; simp) (h1 d hs)
      · exact Option.not_isSome_iff_eq_none.mp hs
    rw [hw]
    constructor
    · intro j t
      show storedComponents w t j ≠ [] ↔ _
      dsimp only
      by_cases hj : j = d
      · subst hj
        rw [dictGet_dictSet_self]
        constructor
        · intro hne
          obtain ⟨sig0, hsig0, -⟩ := (hS j t).mp hne
          rw [hdlive] at hsig0
          cases hsig0
        · rintro ⟨sig', hsig', hmem⟩
          injection hsig' with hsig'
          subst hsig'
          cases hmem
      · rw [dictGet_dictSet_ne _ _ _ _ hj]
        exact hS j t
    · have hnd := List.nodup_cons.mp (hdead ▸ h3)
      refine ⟨fun j hj => ?_, fun j hj => ?_, hnd.2, fun j hj => ?_⟩
      · dsimp only at hj ⊢
        rw [isSome_dictGet_dictSet] at hj
        rcases hj with rfl | hold
        · exact hnd.1
        · intro hmem
          exact h1 j hold (by rw [hdead]; exact List.mem_cons_of_mem d hmem)
      · dsimp only at hj ⊢
        rw [isSome_dictGet_dictSet] at hj
        rcases hj with rfl | hold
        · exact h4 j (by rw [hdead]; simp)
        · exact h2 j hold
      · dsimp only at hj ⊢
        exact h4 j (by rw [hdead]; exact List.mem_cons_of_mem d hj)
  | nil =>
    have hw : w.add_entity.2 = { w with
        id_generator := { w.id_generator with counter := w.id_generator.counter + 1 }
        entities := dictSet w.entities w.id_generator.counter [] } := by
      simp [Coordinator.add_entity, idGet_nil w.id_generator hdead]
    have hdlive : dictGet w.entities w.id_generator.counter = none := by
      by_cases hs : (dictGet w.entities w.id_generator.counter).isSome = true
      · exact absurd (h2 _ hs) (lt_irrefl _)
      · exact Option.not_isSome_iff_eq_none.mp hs
    rw [hw]
    constructor
    · intro j t
      show storedComponents w t j ≠ [] ↔ _
      dsimp only
      by_cases hj : j = w.id_generator.counter
      · subst hj
        rw [dictGet_dictSet_self]
        constructor
        · intro hne
          obtain ⟨sig0, hsig0, -⟩ := (hS _ t).mp hne
          rw [hdlive] at hsig0
          cases hsig0
        · rintro ⟨sig', hsig', hmem⟩
          injection hsig' with hsig'
          subst hsig'
          cases hmem
      · rw [dictGet_dictSet_ne _ _ _ _ hj]
        exact hS j t
    · refine ⟨fun j hj => ?_, fun j hj => ?_, ?_, fun j hj => ?_⟩
      · dsimp only at hj ⊢
        rw [hdead]
        simp
      · dsimp only at hj ⊢
        rw [isSome_dictGet_dictSet] at hj
        rcases hj with rfl | hold
        · exact lt_add_one _
        · exact lt_trans (h2 j hold) (lt_add_one _)
      · dsimp only
        rw [hdead]
        exact List.nodup_nil
      · dsimp only at hj
        rw [hdead] at hj
        cases hj

theorem masterInv_remove_entity (w : Coordinator) (i : EntityID) (w' : Coordinator)
    (h : w.remove_entity i = (w', none)) : MasterInv w → MasterInv w' := by
  rintro ⟨hS, h1, h2, h3, h4⟩
  obtain ⟨hlive, hsys, hents, hgen, hkeep, hgone⟩ := remove_entity_ok w i w' h
  constructor
  · intro j t
    by_cases hj : j = i
    · subst hj
      rw [hents, hgone t, dictGet_dictDropKey_self]
      simp
    · rw [hkeep t j hj, hents, dictGet_dictDropKey_ne _ _ _ hj]
      exact hS j t
  · have hidd : i ∉ w.id_generator.dead_ids := h1 i hlive
    refine ⟨fun j hj => ?_, fun j hj => ?_, ?_, fun j hj => ?_⟩
    · rw [hents, isSome_dictGet_dictDropKey] at hj
      rw [hgen]
      simp only [IDGenerator.add_dead, List.mem_append, List.mem_singleton]
      rintro (hmem | rfl)
      · exact h1 j hj.2 hmem
      · exact hj.1 rfl
    · rw [hents, isSome_dictGet_dictDropKey] at hj
      rw [hgen]
      exact h2 j hj.2
    · rw [hgen]
      simp only [IDGenerator.add_dead]
      rw [List.nodup_append]
      exact ⟨h3, List.nodup_singleton i, fun a ha hai =>
        hidd (by rwa [List.mem_singleton.mp hai] at ha)⟩
    · rw [hgen] at hj ⊢
      simp only [IDGenerator.add_dead, List.mem_append, List.mem_singleton] at hj
      rcases hj with hmem | rfl
      · exact h4 j hmem
      · exact h2 j hlive

theorem masterInv_get_components (w : Coordinator) (i : EntityID) (t : ComponentType) :
    MasterInv w → MasterInv (w.get_components i t).2 := fun hM =>
  masterInv_congr w _ (get_components_effects w i t).2.1
    (get_components_effects w i t).2.2.1 (get_components_effects w i t).2.2.2 hM

theorem masterInv_runWorkflow (g : EntityID) (wf : Workflow) (eid : EntityID)
    (w w' : Coordinator) (h : runWorkflow g wf eid w = (w', none)) :
    MasterInv w → MasterInv w' := by
  intro hM
  cases wf with
  | num_to_char =>
    simp only [runWorkflow] at h
    rcases hg1 : w.get_components eid "number" with ⟨res, w1⟩
    rw [hg1] at h
    have hM1 : MasterInv w1 := by
      have h2 := masterInv_get_components w eid "number" hM
      rw [hg1] at h2
      exact h2
    cases res with
    | error e => simp at h
    | ok comps =>
      cases comps with
      | nil => simp at h
      | cons c0 rest => exact masterInv_add_component w1 g _ w' h hM1
  | char_to_ascii =>
    simp only [runWorkflow] at h
    rcases hg1 : w.get_components eid "char" with ⟨res, w1⟩
    rw [hg1] at h
    have hM1 : MasterInv w1 := by
      have h2 := masterInv_get_components w eid "char" hM
      rw [hg1] at h2
      exact h2
    cases res with
    | error e => simp at h
    | ok comps =>
      cases comps with
      | nil => simp at h
      | cons c0 rest =>
        simp only [] at h
        cases hord : pyOrd c0.data with
        | error e =>
          rw [hord] at h
          simp at h
        | ok n =>
          rw [hord] at h
          exact masterInv_add_component w1 g _ w' h hM1

theorem masterInv_setQue (w : Coordinator) (i : Nat) (q : List EntityID) :
    MasterInv w → MasterInv (setQue w i q) := fun hM =>
  masterInv_congr w (setQue w i q) rfl rfl (fun _ _ => rfl) hM

theorem masterInv_sysUpdate (g : EntityID) (i : Nat) (w w1 : Coordinator)
    (inv : List EntityID) (h : sysUpdate g i w = (w1, none, inv)) :
    MasterInv w → MasterInv w1 := by
  intro hM
  unfold sysUpdate at h
  cases hget : w.systems.get? i with
  | none =>
    rw [hget] at h
    simp at h
    rw [← h.1]
    exact hM
  | some s =>
    rw [hget] at h
    by_cases hq : s.que = []
    · simp [hq] at h
      rw [← h.1]
      exact hM
    · rcases hsel : selectFromQueue s.signature_mask w.entities s.que with ⟨que1, sel, err⟩
      cases err with
      | some e => simp [hq, hsel] at h
      | none =>
        cases sel with
        | none =>
          simp [hq, hsel] at h
          rw [← h.1]
          exact masterInv_setQue w i _ hM
        | some eid =>
          simp [hq, hsel] at h
          obtain ⟨hw, he, -⟩ := h
          refine masterInv_runWorkflow g s.workflow eid (setQue w i que1) w1 ?_
            (masterInv_setQue w i que1 hM)
          rw [Prod.ext_iff]
          exact ⟨hw, he⟩

theorem masterInv_updateGo (g : EntityID) (is : List Nat) :
    ∀ w w', updateGo g is w = (w', none) → MasterInv w → MasterInv w' := by
  induction is with
  | nil =>
    intro w w' h hM
    simp [updateGo] at h
    rw [← h]
    exact hM
  | cons i rest ih =>
    intro w w' h hM
    unfold updateGo at h
    rcases hs : sysUpdate g i w with ⟨wa, ea, inva⟩
    rw [hs] at h
    cases ea with
    | some e => simp at h
    | none => exact ih wa w' h (masterInv_sysUpdate g i w wa inva hs hM)

theorem masterInv_step (g : EntityID) (w w' : Coordinator) (op : Op)
    (h : step g w op = (w', none)) : MasterInv w → MasterInv w' := by
  intro hM
  cases op with
  | add_entity =>
    simp [step] at h
    rw [← h]
    exact masterInv_add_entity w hM
  | remove_entity i => exact masterInv_remove_entity w i w' h hM
  | add_component i c => exact masterInv_add_component w i c w' h hM
  | get_components i t =>
    simp only [step] at h
    rcases hg : w.get_components i t with ⟨res, w2⟩
    rw [hg] at h
    cases res with
    | error e => simp at h
    | ok l =>
      simp at h
      have h2 := masterInv_get_components w i t hM
      rw [hg] at h2
      rw [← h]
      exact h2
  | update =>
    simp only [step, Coordinator.update] at h
    exact masterInv_updateGo g _ w w' h hM

theorem masterInv_runOk (g : EntityID) (ops : List Op) :
    ∀ w w', runOk g w ops = some w' → MasterInv w → MasterInv w' := by
  induction ops with
  | nil =>
    intro w w' h hM
    simp [runOk] at h
    rw [← h]
    exact hM
  | cons op rest ih =>
    intro w w' h hM
    unfold runOk at h
    rcases hs : step g w op with ⟨wa, ea⟩
    rw [hs] at h
    cases ea with
    | some e => simp at h
    | none => exact ih wa w' h (masterInv_step g w wa op hs hM)

theorem masterInv_init (systems : List (SignatureMask × Workflow)) :
    MasterInv (initCoordinator systems) := by
  constructor
  · intro i t
    simp [storedComponents, initCoordinator, dictGet]
  · refine ⟨fun i hi => ?_, fun i hi => ?_, ?_, fun i hi => ?_⟩
    · simp [initCoordinator, dictGet] at hi
    · simp [initCoordinator, dictGet] at hi
    · simp [initCoordinator]
    · simp [initCoordinator] at hi

/-! ## C1 — signature mirrors storage -/

/-- C1 counterexample: in `c1world` the failed `remove_entity(1)` purged
entity 1 from storage "a" and then raised, leaving the entity in the table
with the stale cached signature `{"a"}` while no component is stored for it —
the invariant does not survive arbitrary operation sequences. -/
theorem C1_counterexample :
    dictGet c1world.entities 1 = some ["a"] ∧
    storedComponents c1world "a" 1 = [] ∧
    ¬ SigInv c1world := by
  refine ⟨rfl, rfl, fun h => ?_⟩
  have h2 := (h 1 ["a"] rfl "a").mp (by simp)
  exact h2 rfl

/-- C1 (amended): after any sequence of Coordinator operations each of which
completes without raising, every entity in the table has a cached signature
equal to the set of type tags with at least one stored component for it.  (A
`remove_entity` that raises partway can break this — see the
counterexample.) -/
theorem C1_signature_amended :
    ∀ (systems : List (SignatureMask × Workflow)) (g : EntityID) (ops : List Op)
      (w : Coordinator),
      runOk g (initCoordinator systems) ops = some w → SigInv w := by
  intro systems g ops w h
  have hM := masterInv_runOk g ops (initCoordinator systems) w h (masterInv_init systems)
  intro i sig hsig t
  constructor
  · intro ht
    exact (hM.1 i t).mpr ⟨sig, hsig, ht⟩
  · intro hne
    obtain ⟨sig2, hsig2, hmem⟩ := (hM.1 i t).mp hne
    rw [hsig] at hsig2
    injection hsig2 with hsig2
    rw [hsig2]
    exact hmem

/-- Witness for C1: the trace consisting of a single `add_entity` yields the
coordinator with entity 0, and the invariant holds there. -/
theorem C1_witness :
    SigInv (Coordinator.mk [] [((0 : EntityID), ([] : Signature))] ⟨1, []⟩ []) :=
  C1_signature_amended [] 0 [.add_entity] _ rfl

/-! ## C6 — id uniqueness among live entities -/

/-- C6 counterexample: in `c6world` the failed `remove_entity(1)` put id 1
into the dead pool while entity 1 stayed in the table; the next `add_entity`
hands out id 1 again even though the entity holding it is still live. -/
theorem C6_counterexample :
    dictGet c6world.entities 1 = some [] ∧
    c6world.add_entity.1 = 1 :=
  ⟨rfl, rfl⟩

/-- C6 (amended): after any sequence of operations that all complete without
raising, the id that `add_entity` hands out next is never one held by a live
entity — so ids stay unique among live entities.  (A `remove_entity` that
raises partway breaks this — see the counterexample.) -/
theorem C6_id_unique_amended :
    ∀ (systems : List (SignatureMask × Workflow)) (g : EntityID) (ops : List Op)
      (w : Coordinator),
      runOk g (initCoordinator systems) ops = some w →
      dictGet w.entities w.add_entity.1 = none := by
  intro systems g ops w h
  obtain ⟨h1, h2, h3, h4⟩ :=
    (masterInv_runOk g ops (initCoordinator systems) w h (masterInv_init systems)).2
  cases hdead : w.id_generator.dead_ids with
  | cons d rest =>
    have hid : w.add_entity.1 = d := by
      simp [Coordinator.add_entity, idGet_cons w.id_generator d rest hdead]
    rw [hid]
    by_cases hs : (dictGet w.entities d).isSome = true
    · exact absurd (by rw [hdead]; simp) (h1 d hs)
    · exact Option.not_isSome_iff_eq_none.mp hs
  | nil =>
    have hid : w.add_entity.1 = w.id_generator.counter := by
      simp [Coordinator.add_entity, idGet_nil w.id_generator hdead]
    rw [hid]
    by_cases hs : (dictGet w.entities w.id_generator.counter).isSome = true
    · exact absurd (h2 _ hs) (lt_irrefl _)
    · exact Option.not_isSome_iff_eq_none.mp hs

/-- Witness for C6: after the single-operation trace `add_entity`, the next
id to be handed out (the counter value 1) is not live. -/
theorem C6_witness :
    dictGet (Coordinator.mk [] [((0 : EntityID), ([] : Signature))] ⟨1, []⟩ []).entities
      (Coordinator.mk [] [((0 : EntityID), ([] : Signature))] ⟨1, []⟩ []).add_entity.1 =
      none :=
  C6_id_unique_amended [] 0 [.add_entity] _ rfl

end Kurios
